import Mathlib

/-!
# The client manager of the Ontology Go SDK (client/client.go)

A shallow embedding of `ClientMgr` and `Layer2ClientMgr`:

* transport resolution (`getClient`) and correlation ids (`getNextQid`);
* the query / submission operations, written as explicit state passing over a
  system state that carries the manager and a trace of every externally visible
  action (transport invocations, transaction conversions, one-second sleeps);
* layer-2 key construction (`GetLayer2StoreKey`) together with the hex decoder
  and byte reversal it calls;
* layer-2 proof verification (`VerifyLayer2StoreProof`);
* the block-wait loop (`WaitForGenerateBlock`).

Go's `(value, error)` results are pairs `α × Option String`: the error is `none`
for Go's `nil` and `some msg` otherwise.
-/

namespace OntSdk

/-! ## Data model -/

/-- The contents of a Go byte slice or of a Go string: one entry per byte. -/
abbrev Bytes := List Nat

/-- Handle of an RPC transport (`*RpcClient`), identified by its address. -/
structure RpcClient where
  addr : Nat
deriving DecidableEq

/-- Handle of a REST transport (`*RestClient`), identified by its address. -/
structure RestClient where
  addr : Nat
deriving DecidableEq

/-- Handle of a web-socket transport (`*WSClient`), identified by its address. -/
structure WSClient where
  addr : Nat
deriving DecidableEq

/-- A non-nil value of the interface type `OntologyClient`: one of the three
transports of the manager, or any other implementation handed to
`SetDefaultClient`. -/
inductive OntologyClient where
  | ofRpc (c : RpcClient)
  | ofRest (c : RestClient)
  | ofWs (c : WSClient)
  | other (id : Nat)
deriving DecidableEq

/-- The struct `ClientMgr`. A `nil` pointer or interface is `none`; `qid` is
the `uint64` counter. -/
structure ClientMgr where
  rpc : Option RpcClient
  rest : Option RestClient
  ws : Option WSClient
  defClient : Option OntologyClient
  qid : Nat
deriving DecidableEq

/-- The method `SetDefaultClient`. -/
def SetDefaultClient (this : ClientMgr) (client : Option OntologyClient) : ClientMgr :=
  { this with defClient := client }

/-- The method `getClient`: four `nil` tests in sequence. -/
def getClient (this : ClientMgr) : Option OntologyClient :=
  match this.defClient with
  | some d => some d
  | none =>
    match this.rpc with
    | some r => some (OntologyClient.ofRpc r)
    | none =>
      match this.rest with
      | some r => some (OntologyClient.ofRest r)
      | none =>
        match this.ws with
        | some w => some (OntologyClient.ofWs w)
        | none => none

/-- The priority rule in the words of the specification: the first non-empty
entry of an ordered list of optional handles. -/
def firstNonEmpty {α : Type} : List (Option α) → Option α
  | [] => none
  | some a :: _ => some a
  | none :: rest => firstNonEmpty rest

/-- The method `getNextQid`: `atomic.AddUint64(&this.qid, 1)` rendered with `%d`.
Returns the id and the manager with the advanced counter. -/
def getNextQid (this : ClientMgr) : String × ClientMgr :=
  let n := (this.qid + 1) % 2 ^ 64
  (Nat.repr n, { this with qid := n })

/-- The ids returned by `n` successive calls of `getNextQid`, oldest first, and
the manager afterwards. -/
def getNextQidTimes : Nat → ClientMgr → List String × ClientMgr
  | 0, m => ([], m)
  | n + 1, m =>
    let r := getNextQid m
    let rest := getNextQidTimes n r.2
    (r.1 :: rest.1, rest.2)

/-! ## Hex decoding and layer-2 store keys -/

/-- Go's `encoding/hex` digit table: the value of a hex digit, `none` for any
other byte. -/
def fromHexChar (c : Nat) : Option Nat :=
  if 48 ≤ c ∧ c ≤ 57 then some (c - 48)
  else if 97 ≤ c ∧ c ≤ 102 then some (c - 97 + 10)
  else if 65 ≤ c ∧ c ≤ 70 then some (c - 65 + 10)
  else none

/-- The two errors of Go's `encoding/hex`: `InvalidByteError(c)` and `ErrLength`. -/
inductive HexError where
  | InvalidByteError (c : Nat)
  | ErrLength
deriving DecidableEq

/-- Go's `hex.DecodeString`: pairs of digits are decoded left to right; at the
first bad byte, or at a dangling last digit, decoding stops and the bytes
decoded so far are returned together with the error. -/
def hexDecodeString : Bytes → Bytes × Option HexError
  | [] => ([], none)
  | [p] =>
    match fromHexChar p with
    | none => ([], some (HexError.InvalidByteError p))
    | some _ => ([], some HexError.ErrLength)
  | p :: q :: rest =>
    match fromHexChar p with
    | none => ([], some (HexError.InvalidByteError p))
    | some a =>
      match fromHexChar q with
      | none => ([], some (HexError.InvalidByteError q))
      | some b =>
        let r := hexDecodeString rest
        ((a * 16 + b) :: r.1, r.2)

/-- The helper `common.ToArrayReverse` of the node library: a fresh slice with
the bytes in reverse order. -/
def ToArrayReverse (arr : Bytes) : Bytes :=
  arr.reverse

/-- The method `GetLayer2StoreKey` (the receiver is not used). The error of the
hex decoder is assigned to the blank identifier; the returned error is always
`nil`. -/
def GetLayer2StoreKey (contractAddress : Bytes) (key : Bytes) : Bytes × Option String :=
  let newKey : Bytes := []
  if contractAddress.length > 0 then
    let newKey := newKey ++ [0x05]
    let contractAddrBytes := (hexDecodeString contractAddress).1
    let contractAddr := ToArrayReverse contractAddrBytes
    let newKey := newKey ++ contractAddr
    let newKey := newKey ++ key
    (newKey, none)
  else
    let newKey := newKey ++ key
    (newKey, none)

/-- A byte is a hexadecimal digit: one of 0-9, a-f, A-F. -/
def isHexDigit (c : Nat) : Bool :=
  (48 ≤ c && c ≤ 57) || (97 ≤ c && c ≤ 102) || (65 ≤ c && c ≤ 70)

/-- A valid hex string, in the words of the specification: even length and
only hexadecimal digits. -/
def validHex (s : Bytes) : Bool :=
  s.length % 2 == 0 && s.all isHexDigit

/-! ## The outside world: transports, decode helpers, node library -/

/-- The types of the decode helpers and of the node library that the manager
passes around without inspecting them. -/
structure Types where
  Block : Type
  Layer2Block : Type
  Transaction : Type
  MutableTransaction : Type
  BlockTxHashes : Type
  DeployCode : Type
  SmartContactEvent : Type
  MerkleProof : Type
  CrossStatesProof : Type
  MemPoolTxState : Type
  MemPoolTxCount : Type
  PreExecResult : Type
  Layer2StoreProof : Type
  RangeProof : Type

/-- The node library's `common.UINT256_EMPTY`: 32 zero bytes. -/
def UINT256_EMPTY : Bytes := List.replicate 32 0

/-- One method call on the interface `OntologyClient`: the method, the
correlation id and the operation's arguments. -/
inductive Request (T : Types) where
  | getCurrentBlockHeight (qid : String)
  | getCurrentBlockHash (qid : String)
  | getVersion (qid : String)
  | getNetworkId (qid : String)
  | getBlockByHash (qid : String) (hash : String)
  | getBlockByHeight (qid : String) (height : Nat)
  | getBlockInfoByHeight (qid : String) (height : Nat)
  | getBlockHash (qid : String) (height : Nat)
  | getBlockHeightByTxHash (qid : String) (txHash : String)
  | getBlockTxHashesByHeight (qid : String) (height : Nat)
  | getRawTransaction (qid : String) (txHash : String)
  | getStorage (qid : String) (contractAddress : String) (key : Bytes)
  | getSmartContract (qid : String) (contractAddress : String)
  | getSmartContractEvent (qid : String) (txHash : String)
  | getSmartContractEventByBlock (qid : String) (height : Nat)
  | getMerkleProof (qid : String) (txHash : String)
  | getCrossStatesProof (qid : String) (height : Nat) (key : Bytes)
  | getCrossChainMsg (qid : String) (height : Nat)
  | getMemPoolTxState (qid : String) (txHash : String)
  | getMemPoolTxCount (qid : String)
  | sendRawTransaction (qid : String) (tx : Option T.Transaction) (isPreExec : Bool)
  | getLayer2StoreProof (qid : String) (key : Bytes)

/-- An externally visible action of the manager. -/
inductive Event (T : Types) where
  | invoke (client : OntologyClient) (req : Request T)
  | intoImmutable (mutTx : T.MutableTransaction)
  | sleep (seconds : Nat)

/-- Everything the manager consumes from outside. A transport answers a request
with response bytes (`none` is a `nil` slice) and an error; the answer may
depend on everything that happened before (`net` sees the trace). The other
fields are the decode helpers of package `utils`, the node library's
`IntoImmutable`, `json.Unmarshal` at `PreExecResult`, and the `%s` rendering
of a byte slice. -/
structure Env (T : Types) where
  net : List (Event T) → OntologyClient → Request T → Option Bytes × Option String
  IntoImmutable : T.MutableTransaction → Option T.Transaction × Option String
  GetUint32 : Option Bytes → Nat × Option String
  GetUint256 : Option Bytes → Bytes × Option String
  GetBlock : Option Bytes → Option T.Block × Option String
  GetLayer2Block : Option Bytes → Option T.Layer2Block × Option String
  GetTransaction : Option Bytes → Option T.Transaction × Option String
  GetBlockTxHashes : Option Bytes → Option T.BlockTxHashes × Option String
  GetStorage : Option Bytes → Option Bytes × Option String
  GetSmartContract : Option Bytes → Option T.DeployCode × Option String
  GetSmartContractEvent : Option Bytes → Option T.SmartContactEvent × Option String
  GetSmartContactEvents : Option Bytes → List T.SmartContactEvent × Option String
  GetMerkleProof : Option Bytes → Option T.MerkleProof × Option String
  GetCrossStatesProof : Option Bytes → Option T.CrossStatesProof × Option String
  GetCrossChainMsg : Option Bytes → String × Option String
  GetMemPoolTxState : Option Bytes → Option T.MemPoolTxState × Option String
  GetMemPoolTxCount : Option Bytes → Option T.MemPoolTxCount × Option String
  GetVersion : Option Bytes → String × Option String
  GetLayer2StoreProof : Option Bytes → Option T.Layer2StoreProof × Option String
  unmarshalPreExecResult : Option Bytes → Option T.PreExecResult × Option String
  showBytes : Option Bytes → String

/-- The state the operations act on: the manager and the trace of actions
performed so far, oldest first. -/
structure Sys (T : Types) where
  mgr : ClientMgr
  trace : List (Event T)

/-- The error every operation returns when `getClient` yields `nil`. -/
def errNoClient : String := "don't have available client of ontology"

variable {T : Types}

/-- Evaluation of `this.getNextQid()` inside an operation. -/
def nextQid (s : Sys T) : String × Sys T :=
  ((getNextQid s.mgr).1, { s with mgr := (getNextQid s.mgr).2 })

/-- A method call on the selected transport: the answer, and the call recorded
in the trace. -/
def invoke (E : Env T) (client : OntologyClient) (req : Request T) (s : Sys T) :
    (Option Bytes × Option String) × Sys T :=
  (E.net s.trace client req, { s with trace := s.trace ++ [Event.invoke client req] })

/-- The call `mutTx.IntoImmutable()`, recorded in the trace. -/
def intoImmutable (E : Env T) (mutTx : T.MutableTransaction) (s : Sys T) :
    (Option T.Transaction × Option String) × Sys T :=
  (E.IntoImmutable mutTx, { s with trace := s.trace ++ [Event.intoImmutable mutTx] })

/-- The call `time.Sleep(time.Second)`, recorded in the trace. -/
def sleepSecond (s : Sys T) : Sys T :=
  { s with trace := s.trace ++ [Event.sleep 1] }

/-! ## Query operations -/

/-- The method `GetCurrentBlockHeight` of `ClientMgr`. -/
def GetCurrentBlockHeight (E : Env T) (s : Sys T) : (Nat × Option String) × Sys T :=
  match getClient s.mgr with
  | none => ((0, some errNoClient), s)
  | some client =>
    let q := nextQid s
    let r := invoke E client (Request.getCurrentBlockHeight q.1) q.2
    match r.1.2 with
    | some err => ((0, some err), r.2)
    | none => (E.GetUint32 r.1.1, r.2)

/-- The method `GetCurrentBlockHash` of `ClientMgr`. -/
def GetCurrentBlockHash (E : Env T) (s : Sys T) : (Bytes × Option String) × Sys T :=
  match getClient s.mgr with
  | none => ((UINT256_EMPTY, some errNoClient), s)
  | some client =>
    let q := nextQid s
    let r := invoke E client (Request.getCurrentBlockHash q.1) q.2
    match r.1.2 with
    | some err => ((UINT256_EMPTY, some err), r.2)
    | none => (E.GetUint256 r.1.1, r.2)

/-- The method `GetBlockByHeight` of `ClientMgr`. -/
def GetBlockByHeight (E : Env T) (height : Nat) (s : Sys T) :
    (Option T.Block × Option String) × Sys T :=
  match getClient s.mgr with
  | none => ((none, some errNoClient), s)
  | some client =>
    let q := nextQid s
    let r := invoke E client (Request.getBlockByHeight q.1 height) q.2
    match r.1.2 with
    | some err => ((none, some err), r.2)
    | none => (E.GetBlock r.1.1, r.2)

/-- The method `GetLayer2BlockByHeight` of `Layer2ClientMgr`. -/
def GetLayer2BlockByHeight (E : Env T) (height : Nat) (s : Sys T) :
    (Option T.Layer2Block × Option String) × Sys T :=
  match getClient s.mgr with
  | none => ((none, some errNoClient), s)
  | some client =>
    let q := nextQid s
    let r := invoke E client (Request.getBlockByHeight q.1 height) q.2
    match r.1.2 with
    | some err => ((none, some err), r.2)
    | none => (E.GetLayer2Block r.1.1, r.2)

/-- The method `GetBlockInfoByHeight` of `ClientMgr`. -/
def GetBlockInfoByHeight (E : Env T) (height : Nat) (s : Sys T) :
    (Option Bytes × Option String) × Sys T :=
  match getClient s.mgr with
  | none => ((none, some errNoClient), s)
  | some client =>
    let q := nextQid s
    let r := invoke E client (Request.getBlockInfoByHeight q.1 height) q.2
    match r.1.2 with
    | some err => ((none, some err), r.2)
    | none => ((r.1.1, none), r.2)

/-- The method `GetBlockByHash` of `ClientMgr`. -/
def GetBlockByHash (E : Env T) (blockHash : String) (s : Sys T) :
    (Option T.Block × Option String) × Sys T :=
  match getClient s.mgr with
  | none => ((none, some errNoClient), s)
  | some client =>
    let q := nextQid s
    let r := invoke E client (Request.getBlockByHash q.1 blockHash) q.2
    match r.1.2 with
    | some err => ((none, some err), r.2)
    | none => (E.GetBlock r.1.1, r.2)

/-- The method `GetLayer2BlockByHash` of `Layer2ClientMgr`. -/
def GetLayer2BlockByHash (E : Env T) (blockHash : String) (s : Sys T) :
    (Option T.Layer2Block × Option String) × Sys T :=
  match getClient s.mgr with
  | none => ((none, some errNoClient), s)
  | some client =>
    let q := nextQid s
    let r := invoke E client (Request.getBlockByHash q.1 blockHash) q.2
    match r.1.2 with
    | some err => ((none, some err), r.2)
    | none => (E.GetLayer2Block r.1.1, r.2)

/-- The method `GetTransaction` of `ClientMgr`. -/
def GetTransaction (E : Env T) (txHash : String) (s : Sys T) :
    (Option T.Transaction × Option String) × Sys T :=
  match getClient s.mgr with
  | none => ((none, some errNoClient), s)
  | some client =>
    let q := nextQid s
    let r := invoke E client (Request.getRawTransaction q.1 txHash) q.2
    match r.1.2 with
    | some err => ((none, some err), r.2)
    | none => (E.GetTransaction r.1.1, r.2)

/-- The method `GetBlockHash` of `ClientMgr`. -/
def GetBlockHash (E : Env T) (height : Nat) (s : Sys T) : (Bytes × Option String) × Sys T :=
  match getClient s.mgr with
  | none => ((UINT256_EMPTY, some errNoClient), s)
  | some client =>
    let q := nextQid s
    let r := invoke E client (Request.getBlockHash q.1 height) q.2
    match r.1.2 with
    | some err => ((UINT256_EMPTY, some err), r.2)
    | none => (E.GetUint256 r.1.1, r.2)

/-- The method `GetBlockHeightByTxHash` of `ClientMgr`. -/
def GetBlockHeightByTxHash (E : Env T) (txHash : String) (s : Sys T) :
    (Nat × Option String) × Sys T :=
  match getClient s.mgr with
  | none => ((0, some errNoClient), s)
  | some client =>
    let q := nextQid s
    let r := invoke E client (Request.getBlockHeightByTxHash q.1 txHash) q.2
    match r.1.2 with
    | some err => ((0, some err), r.2)
    | none => (E.GetUint32 r.1.1, r.2)

/-- The method `GetBlockTxHashesByHeight` of `ClientMgr`. -/
def GetBlockTxHashesByHeight (E : Env T) (height : Nat) (s : Sys T) :
    (Option T.BlockTxHashes × Option String) × Sys T :=
  match getClient s.mgr with
  | none => ((none, some errNoClient), s)
  | some client =>
    let q := nextQid s
    let r := invoke E client (Request.getBlockTxHashesByHeight q.1 height) q.2
    match r.1.2 with
    | some err => ((none, some err), r.2)
    | none => (E.GetBlockTxHashes r.1.1, r.2)

/-- The method `GetStorage` of `ClientMgr`. -/
def GetStorage (E : Env T) (contractAddress : String) (key : Bytes) (s : Sys T) :
    (Option Bytes × Option String) × Sys T :=
  match getClient s.mgr with
  | none => ((none, some errNoClient), s)
  | some client =>
    let q := nextQid s
    let r := invoke E client (Request.getStorage q.1 contractAddress key) q.2
    match r.1.2 with
    | some err => ((none, some err), r.2)
    | none => (E.GetStorage r.1.1, r.2)

/-- The method `GetSmartContract` of `ClientMgr`. -/
def GetSmartContract (E : Env T) (contractAddress : String) (s : Sys T) :
    (Option T.DeployCode × Option String) × Sys T :=
  match getClient s.mgr with
  | none => ((none, some errNoClient), s)
  | some client =>
    let q := nextQid s
    let r := invoke E client (Request.getSmartContract q.1 contractAddress) q.2
    match r.1.2 with
    | some err => ((none, some err), r.2)
    | none => (E.GetSmartContract r.1.1, r.2)

/-- The method `GetSmartContractEvent` of `ClientMgr`. -/
def GetSmartContractEvent (E : Env T) (txHash : String) (s : Sys T) :
    (Option T.SmartContactEvent × Option String) × Sys T :=
  match getClient s.mgr with
  | none => ((none, some errNoClient), s)
  | some client =>
    let q := nextQid s
    let r := invoke E client (Request.getSmartContractEvent q.1 txHash) q.2
    match r.1.2 with
    | some err => ((none, some err), r.2)
    | none => (E.GetSmartContractEvent r.1.1, r.2)

/-- The contents of `string(data)`: a `nil` slice converts to the empty string. -/
def bytesOf (data : Option Bytes) : Bytes :=
  data.getD []

/-- The method `GetSmartContractEventByBlock`. A `nil` slice of events is the
empty list; `[34, 34]` are the two bytes of the Go string literal `"\"\""`. -/
def GetSmartContractEventByBlock (E : Env T) (height : Nat) (s : Sys T) :
    (List T.SmartContactEvent × Option String) × Sys T :=
  match getClient s.mgr with
  | none => (([], some errNoClient), s)
  | some client =>
    let q := nextQid s
    let r := invoke E client (Request.getSmartContractEventByBlock q.1 height) q.2
    match r.1.2 with
    | some err => (([], some err), r.2)
    | none =>
      if r.1.1 = none ∨ bytesOf r.1.1 = [] ∨ bytesOf r.1.1 = [34, 34] then
        (([], none), r.2)
      else
        (E.GetSmartContactEvents r.1.1, r.2)

/-- The method `GetMerkleProof` of `ClientMgr`. -/
def GetMerkleProof (E : Env T) (txHash : String) (s : Sys T) :
    (Option T.MerkleProof × Option String) × Sys T :=
  match getClient s.mgr with
  | none => ((none, some errNoClient), s)
  | some client =>
    let q := nextQid s
    let r := invoke E client (Request.getMerkleProof q.1 txHash) q.2
    match r.1.2 with
    | some err => ((none, some err), r.2)
    | none => (E.GetMerkleProof r.1.1, r.2)

/-- The method `GetCrossStatesProof` of `ClientMgr`. -/
def GetCrossStatesProof (E : Env T) (height : Nat) (key : Bytes) (s : Sys T) :
    (Option T.CrossStatesProof × Option String) × Sys T :=
  match getClient s.mgr with
  | none => ((none, some errNoClient), s)
  | some client =>
    let q := nextQid s
    let r := invoke E client (Request.getCrossStatesProof q.1 height key) q.2
    match r.1.2 with
    | some err => ((none, some err), r.2)
    | none => (E.GetCrossStatesProof r.1.1, r.2)

/-- The method `GetCrossChainMsg` of `ClientMgr`. -/
def GetCrossChainMsg (E : Env T) (height : Nat) (s : Sys T) :
    (String × Option String) × Sys T :=
  match getClient s.mgr with
  | none => (("", some errNoClient), s)
  | some client =>
    let q := nextQid s
    let r := invoke E client (Request.getCrossChainMsg q.1 height) q.2
    match r.1.2 with
    | some err => (("", some err), r.2)
    | none => (E.GetCrossChainMsg r.1.1, r.2)

/-- The method `GetMemPoolTxState` of `ClientMgr`. -/
def GetMemPoolTxState (E : Env T) (txHash : String) (s : Sys T) :
    (Option T.MemPoolTxState × Option String) × Sys T :=
  match getClient s.mgr with
  | none => ((none, some errNoClient), s)
  | some client =>
    let q := nextQid s
    let r := invoke E client (Request.getMemPoolTxState q.1 txHash) q.2
    match r.1.2 with
    | some err => ((none, some err), r.2)
    | none => (E.GetMemPoolTxState r.1.1, r.2)

/-- The method `GetMemPoolTxCount` of `ClientMgr`. -/
def GetMemPoolTxCount (E : Env T) (s : Sys T) :
    (Option T.MemPoolTxCount × Option String) × Sys T :=
  match getClient s.mgr with
  | none => ((none, some errNoClient), s)
  | some client =>
    let q := nextQid s
    let r := invoke E client (Request.getMemPoolTxCount q.1) q.2
    match r.1.2 with
    | some err => ((none, some err), r.2)
    | none => (E.GetMemPoolTxCount r.1.1, r.2)

/-- The method `GetVersion` of `ClientMgr`. -/
def GetVersion (E : Env T) (s : Sys T) :
    (String × Option String) × Sys T :=
  match getClient s.mgr with
  | none => (("", some errNoClient), s)
  | some client =>
    let q := nextQid s
    let r := invoke E client (Request.getVersion q.1) q.2
    match r.1.2 with
    | some err => (("", some err), r.2)
    | none => (E.GetVersion r.1.1, r.2)

/-- The method `GetNetworkId` of `ClientMgr`. -/
def GetNetworkId (E : Env T) (s : Sys T) :
    (Nat × Option String) × Sys T :=
  match getClient s.mgr with
  | none => ((0, some errNoClient), s)
  | some client =>
    let q := nextQid s
    let r := invoke E client (Request.getNetworkId q.1) q.2
    match r.1.2 with
    | some err => ((0, some err), r.2)
    | none => (E.GetUint32 r.1.1, r.2)

/-! ## Submission operations -/

/-- The method `SendTransaction` of `ClientMgr`. -/
def SendTransaction (E : Env T) (mutTx : T.MutableTransaction) (s : Sys T) :
    (Bytes × Option String) × Sys T :=
  match getClient s.mgr with
  | none => ((UINT256_EMPTY, some errNoClient), s)
  | some client =>
    let c := intoImmutable E mutTx s
    match c.1.2 with
    | some err => ((UINT256_EMPTY, some err), c.2)
    | none =>
      let q := nextQid c.2
      let r := invoke E client (Request.sendRawTransaction q.1 c.1.1 false) q.2
      match r.1.2 with
      | some err => ((UINT256_EMPTY, some err), r.2)
      | none => (E.GetUint256 r.1.1, r.2)

/-- The method `PreExecTransaction` of `ClientMgr`. -/
def PreExecTransaction (E : Env T) (mutTx : T.MutableTransaction) (s : Sys T) :
    (Option T.PreExecResult × Option String) × Sys T :=
  match getClient s.mgr with
  | none => ((none, some errNoClient), s)
  | some client =>
    let c := intoImmutable E mutTx s
    match c.1.2 with
    | some err => ((none, some err), c.2)
    | none =>
      let q := nextQid c.2
      let r := invoke E client (Request.sendRawTransaction q.1 c.1.1 true) q.2
      match r.1.2 with
      | some err => ((none, some err), r.2)
      | none =>
        let u := E.unmarshalPreExecResult r.1.1
        match u.2 with
        | some err =>
          ((none, some ("json.Unmarshal PreExecResult:" ++ E.showBytes r.1.1 ++
            " error:" ++ err)), r.2)
        | none => ((u.1, none), r.2)

/-! ## Layer-2 extension -/

/-- The struct `Layer2ClientMgr`: a pointer to a manager. The layer-2 queries
act on the state of that manager. -/
structure Layer2ClientMgr where
  client : ClientMgr

/-- The method `GetLayer2StoreProof` of `Layer2ClientMgr`. -/
def GetLayer2StoreProof (E : Env T) (key : Bytes) (s : Sys T) :
    (Option T.Layer2StoreProof × Option String) × Sys T :=
  match getClient s.mgr with
  | none => ((none, some errNoClient), s)
  | some client =>
    let q := nextQid s
    let r := invoke E client (Request.getLayer2StoreProof q.1 key) q.2
    match r.1.2 with
    | some err => ((none, some err), r.2)
    | none => (E.GetLayer2StoreProof r.1.1, r.2)

/-- The three external steps of proof verification. -/
inductive Stage where
  | deserialize
  | verify
  | verifyItem
deriving DecidableEq

/-- The consumed proof machinery: `Layer2StoreProof.Deserialization` on a source
over the blob (the proof it fills in, and its error), and the range proof's
`Verify` (pointer receiver: the proof afterwards, and its error) and
`VerifyItem`. -/
structure Verifier (T : Types) where
  Deserialization : Bytes → T.RangeProof × Option String
  Verify : T.RangeProof → Bytes → T.RangeProof × Option String
  VerifyItem : T.RangeProof → Bytes → Bytes → Option String

/-- The method `VerifyLayer2StoreProof`: the Go result, and the external steps
that were run, in order. -/
def VerifyLayer2StoreProof (V : Verifier T) (_this : Layer2ClientMgr)
    (key value proof stateRoot : Bytes) : (Bool × Option String) × List Stage :=
  let d := V.Deserialization proof
  match d.2 with
  | some err => ((false, some err), [Stage.deserialize])
  | none =>
    let v := V.Verify d.1 stateRoot
    match v.2 with
    | some err => ((false, some err), [Stage.deserialize, Stage.verify])
    | none =>
      match V.VerifyItem v.1 key value with
      | some err => ((false, some err), [Stage.deserialize, Stage.verify, Stage.verifyItem])
      | none => ((true, none), [Stage.deserialize, Stage.verify, Stage.verifyItem])

/-! ## Block wait -/

/-- Subtraction of two `uint32` values: the result wraps modulo 2^32. -/
def subUint32 (a b : Nat) : Nat :=
  (a % 2 ^ 32 + 2 ^ 32 - b % 2 ^ 32) % 2 ^ 32

/-- The constant `time.Second`, in nanoseconds. -/
def Second : Int := 1000000000

/-- The `for` loop of `WaitForGenerateBlock` with `n` iterations left: whether
it returned `true` from inside, and the state when it ended. -/
def waitLoop (E : Env T) (blockHeight count : Nat) : Nat → Sys T → Bool × Sys T
  | 0, s => (false, s)
  | n + 1, s =>
    let r := GetCurrentBlockHeight E (sleepSecond s)
    match r.1.2 with
    | some _ => waitLoop E blockHeight count n r.2
    | none =>
      if subUint32 r.1.1 blockHeight ≥ count then (true, r.2)
      else waitLoop E blockHeight count n r.2

/-- The method `WaitForGenerateBlock`; `timeout` is a `time.Duration` in
nanoseconds, `blockCount` the variadic arguments. Go's integer division
truncates toward zero; `int` is taken to be 64 bits wide, so the conversion of
the quotient changes nothing. -/
def WaitForGenerateBlock (E : Env T) (timeout : Int) (blockCount : List Nat) (s : Sys T) :
    (Bool × Option String) × Sys T :=
  let count : Nat := 2
  let count :=
    match blockCount with
    | c :: _ => if c > 0 then c else count
    | [] => count
  let b := GetCurrentBlockHeight E s
  match b.1.2 with
  | some err => ((false, some ("GetCurrentBlockHeight error:" ++ err)), b.2)
  | none =>
    let secs := Int.tdiv timeout Second
    let secs := if secs ≤ 0 then 1 else secs
    let w := waitLoop E b.1.1 count secs.toNat b.2
    if w.1 then ((true, none), w.2)
    else ((false, some ("timeout after " ++ toString secs ++ " (s)")), w.2)

/-! ## Definitions used to state the properties -/

/-- The number a decimal numeral denotes. -/
def decimalValue (s : String) : Nat :=
  s.data.foldl (fun a c => a * 10 + (c.toNat - 48)) 0

/-- The value of a hexadecimal digit: 0-9 for the digits, 10-15 for a-f and
for A-F. -/
def hexDigitValue (c : Nat) : Nat :=
  if c ≤ 57 then c - 48 else if 97 ≤ c then c - 87 else c - 55

/-- The bytes a valid hex string denotes, in the words of the specification:
each pair of digits is one byte, high digit first. -/
def decodeHex : Bytes → Bytes
  | p :: q :: rest => (16 * hexDigitValue p + hexDigitValue q) :: decodeHex rest
  | _ => []

/-- The target advance in the words of the specification: 2 when no count is
supplied or the supplied count is 0, the first supplied count otherwise. -/
def specTarget (blockCount : List Nat) : Nat :=
  match blockCount.head? with
  | none => 2
  | some 0 => 2
  | some c => c

/-- The number of polls in the words of the specification: the whole seconds
of the timeout (rounded down), clamped to a minimum of 1. -/
def specSecs (timeout : Int) : Nat :=
  (max 1 (timeout / 1000000000)).toNat

/-- The height reads of a wait that is never cut short: read 0 is the baseline
query, read `j + 1` is the query made after one more second of sleep. -/
def heightRead (E : Env T) (s : Sys T) : Nat → (Nat × Option String) × Sys T
  | 0 => GetCurrentBlockHeight E s
  | j + 1 => GetCurrentBlockHeight E (sleepSecond (heightRead E s j).2)

/-- The seconds slept in a trace. -/
def elapsedSeconds (trace : List (Event T)) : Nat :=
  (trace.map (fun e => match e with
    | Event.sleep n => n
    | _ => 0)).sum

/-- The number of height queries sent to a transport in a trace. -/
def heightQueries (trace : List (Event T)) : Nat :=
  (trace.map (fun e => match e with
    | Event.invoke _ (Request.getCurrentBlockHeight _) => 1
    | _ => 0)).sum

/-- The number of transport invocations in a trace. -/
def invocations (trace : List (Event T)) : Nat :=
  (trace.map (fun e => match e with
    | Event.invoke _ _ => 1
    | _ => 0)).sum

/-! ## A scripted node, for concrete runs -/

/-- External types for concrete runs: every payload is a number. -/
abbrev simTypes : Types :=
  { Block := Nat, Layer2Block := Nat, Transaction := Nat, MutableTransaction := Nat,
    BlockTxHashes := Nat, DeployCode := Nat, SmartContactEvent := Nat, MerkleProof := Nat,
    CrossStatesProof := Nat, MemPoolTxState := Nat, MemPoolTxCount := Nat,
    PreExecResult := Nat, Layer2StoreProof := Nat, RangeProof := Nat }

/-- A scripted node: the k-th transport invocation of a run is answered by the
k-th entry of the script, and by a connection error once the script is used up.
Numbers are decoded from one-byte responses, events from one byte each; the
other decoders reject everything. -/
def simEnv (script : List (Option Bytes × Option String)) : Env simTypes :=
  { net := fun trace _ _ => (script.get? (invocations trace)).getD (none, some "connection refused")
    IntoImmutable := fun mutTx => (some mutTx, none)
    GetUint32 := fun data =>
      match data with
      | some [h] => (h, none)
      | _ => (0, some "json.Unmarshal error")
    GetUint256 := fun data => (bytesOf data, none)
    GetBlock := fun _ => (none, some "not scripted")
    GetLayer2Block := fun _ => (none, some "not scripted")
    GetTransaction := fun _ => (none, some "not scripted")
    GetBlockTxHashes := fun _ => (none, some "not scripted")
    GetStorage := fun data => (data, none)
    GetSmartContract := fun _ => (none, some "not scripted")
    GetSmartContractEvent := fun _ => (none, some "not scripted")
    GetSmartContactEvents := fun data => (bytesOf data, none)
    GetMerkleProof := fun _ => (none, some "not scripted")
    GetCrossStatesProof := fun _ => (none, some "not scripted")
    GetCrossChainMsg := fun _ => ("", some "not scripted")
    GetMemPoolTxState := fun _ => (none, some "not scripted")
    GetMemPoolTxCount := fun _ => (none, some "not scripted")
    GetVersion := fun _ => ("", some "not scripted")
    GetLayer2StoreProof := fun _ => (none, some "not scripted")
    unmarshalPreExecResult := fun _ => (none, some "not scripted")
    showBytes := fun _ => "" }

/-- A script of successful height answers. -/
def heightScript (heights : List Nat) : List (Option Bytes × Option String) :=
  heights.map (fun h => (some [h], none))

/-- A manager with only an RPC client, a zero counter and an empty trace. -/
def simStart : Sys simTypes :=
  { mgr := { rpc := some { addr := 1 }, rest := none, ws := none, defClient := none, qid := 0 }
    trace := [] }

/-- A manager with no client at all and an empty trace. -/
def simEmpty : Sys simTypes :=
  { mgr := { rpc := none, rest := none, ws := none, defClient := none, qid := 0 }
    trace := [] }

/-! ## Transport resolution and correlation ids -/

theorem digitChar_value (d : Nat) (h : d < 10) : (Nat.digitChar d).toNat - 48 = d := by
  interval_cases d <;> rfl

theorem foldl_toDigitsCore (fuel : Nat) : ∀ (n : Nat) (ds : List Char), n < fuel →
    (Nat.toDigitsCore 10 fuel n ds).foldl (fun a c => a * 10 + (c.toNat - 48)) 0
      = ds.foldl (fun a c => a * 10 + (c.toNat - 48)) n := by
  induction fuel with
  | zero => intro n ds h; omega
  | succ f ih =>
    intro n ds h
    have hd : (Nat.digitChar (n % 10)).toNat - 48 = n % 10 :=
      digitChar_value _ (Nat.mod_lt _ (by decide))
    simp only [Nat.toDigitsCore]
    split
    · rename_i h0
      have hn : n % 10 = n := by omega
      simp only [List.foldl_cons, hd, Nat.zero_mul, Nat.zero_add]
      rw [hn]
    · rename_i h0
      rw [ih (n / 10) _ (by omega)]
      simp only [List.foldl_cons, hd]
      congr 1
      omega

theorem decimalValue_repr (n : Nat) : decimalValue (Nat.repr n) = n := by
  unfold decimalValue Nat.repr Nat.toDigits
  simp only [List.asString]
  rw [foldl_toDigitsCore _ _ _ (Nat.lt_succ_self n)]
  rfl

theorem repr_injective {a b : Nat} (h : Nat.repr a = Nat.repr b) : a = b := by
  have := congrArg decimalValue h
  simpa only [decimalValue_repr] using this

theorem getNextQid_eq (m : ClientMgr) (h : m.qid + 1 < 2 ^ 64) :
    getNextQid m = (Nat.repr (m.qid + 1), { m with qid := m.qid + 1 }) := by
  unfold getNextQid
  simp only [Nat.mod_eq_of_lt h]

theorem getNextQidTimes_eq (N : Nat) : ∀ m : ClientMgr, m.qid + N < 2 ^ 64 →
    getNextQidTimes N m
      = ((List.range' (m.qid + 1) N).map Nat.repr, { m with qid := m.qid + N }) := by
  induction N with
  | zero => intro m _; rfl
  | succ k ih =>
    intro m h
    have h1 : m.qid + 1 < 2 ^ 64 := by omega
    simp only [getNextQidTimes, getNextQid_eq m h1]
    rw [ih _ (by simp only []; omega)]
    simp only [List.range'_succ, List.map_cons]
    congr 2
    omega

/-- C1: `getClient` is the first non-empty of (pinned default, RPC, REST,
web-socket) in that order; it does not depend on the counter; it is `nil`
exactly when all four are unset; a pinned default wins over every occupied
slot, RPC wins over REST and web-socket, and REST wins over web-socket. -/
theorem getClient_priority (m : ClientMgr) :
    getClient m = firstNonEmpty [m.defClient, m.rpc.map OntologyClient.ofRpc,
        m.rest.map OntologyClient.ofRest, m.ws.map OntologyClient.ofWs]
    ∧ (getClient m = none ↔
        m.defClient = none ∧ m.rpc = none ∧ m.rest = none ∧ m.ws = none)
    ∧ (∀ q, getClient { m with qid := q } = getClient m)
    ∧ (∀ d r s w q, getClient ⟨r, s, w, some d, q⟩ = some d)
    ∧ (∀ r s w q, getClient ⟨some r, s, w, none, q⟩ = some (OntologyClient.ofRpc r))
    ∧ (∀ r w q, getClient ⟨none, some r, w, none, q⟩ = some (OntologyClient.ofRest r))
    ∧ (∀ w q, getClient ⟨none, none, some w, none, q⟩ = some (OntologyClient.ofWs w)) := by
  obtain ⟨rpc, rest, ws, d, q⟩ := m
  refine ⟨?_, ?_, fun _ => rfl, fun _ _ _ _ _ => rfl, fun _ _ _ _ => rfl,
    fun _ _ _ => rfl, fun _ _ => rfl⟩
  · cases d <;> cases rpc <;> cases rest <;> cases ws <;> rfl
  · cases d <;> cases rpc <;> cases rest <;> cases ws <;> simp [getClient]

/-- C5: starting from counter `c`, `N` successive calls of `getNextQid` with
`c + N < 2^64` return the decimal numerals of `c+1, ..., c+N` in that order and
leave the counter at `c+N`; the returned ids are pairwise distinct, each denotes
a larger number than every id returned before it, and the first id of a manager
whose counter is 0 is "1". -/
theorem getNextQid_sequence (m : ClientMgr) (N : Nat) (h : m.qid + N < 2 ^ 64) :
    getNextQidTimes N m
      = ((List.range' (m.qid + 1) N).map Nat.repr, { m with qid := m.qid + N })
    ∧ (getNextQidTimes N m).1.Nodup
    ∧ (getNextQidTimes N m).1.Pairwise (fun a b => decimalValue a < decimalValue b)
    ∧ (getNextQid { m with qid := 0 }).1 = "1" := by
  have hp : (getNextQidTimes N m).1.Pairwise
      (fun a b => decimalValue a < decimalValue b) := by
    rw [getNextQidTimes_eq N m h]
    simp only [List.pairwise_map, decimalValue_repr]
    exact List.pairwise_lt_range' (m.qid + 1) N
  refine ⟨getNextQidTimes_eq N m h, ?_, hp, ?_⟩
  · exact hp.imp (fun {a b} hab heq => by rw [heq] at hab; exact Nat.lt_irrefl _ hab)
  · have h1 : (0 + 1) % 2 ^ 64 = 1 := by decide
    simp only [getNextQid, h1]
    decide

/-- C5 at a concrete input: three calls from counter 41. -/
theorem getNextQid_sequence_witness :
    getNextQidTimes 3 ⟨none, none, none, none, 41⟩
      = (["42", "43", "44"], ⟨none, none, none, none, 44⟩) :=
  (getNextQid_sequence ⟨none, none, none, none, 41⟩ 3 (by decide)).1

/-! ## Layer-2 store keys -/

theorem fromHexChar_isSome (c : Nat) : (fromHexChar c).isSome = isHexDigit c := by
  unfold fromHexChar isHexDigit
  by_cases h1 : 48 ≤ c ∧ c ≤ 57
  · simp [h1]
  · by_cases h2 : 97 ≤ c ∧ c ≤ 102
    · simp [h1, h2]
    · by_cases h3 : 65 ≤ c ∧ c ≤ 70
      · simp [h1, h2, h3]
      · have e1 : (decide (48 ≤ c) && decide (c ≤ 57)) = false := by
          simpa [Bool.and_eq_true] using h1
        have e2 : (decide (97 ≤ c) && decide (c ≤ 102)) = false := by
          simpa [Bool.and_eq_true] using h2
        have e3 : (decide (65 ≤ c) && decide (c ≤ 70)) = false := by
          simpa [Bool.and_eq_true] using h3
        simp only [h1, h2, h3, if_false, e1, e2, e3]
        rfl

theorem validHex_nil : validHex [] = true := rfl

theorem validHex_single (p : Nat) : validHex [p] = false := rfl

theorem validHex_cons_cons (p q : Nat) (rest : Bytes) :
    validHex (p :: q :: rest) = (isHexDigit p && (isHexDigit q && validHex rest)) := by
  have hl : (p :: q :: rest).length % 2 = rest.length % 2 := by
    simp only [List.length_cons]; omega
  simp only [validHex, hl, List.all_cons]
  cases isHexDigit p <;> cases isHexDigit q <;> simp

/-- The hex decoder reports no error exactly on valid hex strings. -/
theorem hexDecodeString_ok_iff : ∀ s : Bytes,
    (hexDecodeString s).2 = none ↔ validHex s = true
  | [] => by simp [hexDecodeString, validHex_nil]
  | [p] => by
    have hf : validHex [p] = false := validHex_single p
    rw [hf]
    unfold hexDecodeString
    cases fromHexChar p <;> simp
  | p :: q :: rest => by
    have ih := hexDecodeString_ok_iff rest
    rw [validHex_cons_cons, ← fromHexChar_isSome, ← fromHexChar_isSome]
    unfold hexDecodeString
    cases hp : fromHexChar p with
    | none => simp
    | some a =>
      cases hq : fromHexChar q with
      | none => simp
      | some b => simpa using ih

/-- The decoded bytes never outnumber the digit pairs; all pairs are decoded
exactly when there is no error. -/
theorem hexDecodeString_length : ∀ s : Bytes,
    ((hexDecodeString s).2 = none → (hexDecodeString s).1.length = s.length / 2)
    ∧ ((hexDecodeString s).2 ≠ none → 2 * (hexDecodeString s).1.length < s.length)
  | [] => by simp [hexDecodeString]
  | [p] => by
    unfold hexDecodeString
    cases fromHexChar p <;> simp
  | p :: q :: rest => by
    have ih := hexDecodeString_length rest
    unfold hexDecodeString
    cases hp : fromHexChar p with
    | none => simp
    | some a =>
      cases hq : fromHexChar q with
      | none => simp
      | some b =>
        simp only [List.length_cons]
        refine ⟨fun h => ?_, fun h => ?_⟩
        · have := ih.1 h
          omega
        · have := ih.2 h
          omega

theorem fromHexChar_eq (c : Nat) (h : isHexDigit c = true) :
    fromHexChar c = some (hexDigitValue c) := by
  unfold isHexDigit at h
  simp only [Bool.or_eq_true, Bool.and_eq_true, decide_eq_true_eq] at h
  unfold fromHexChar hexDigitValue
  rcases h with (h | h) | h
  · rw [if_pos h, if_pos h.2]
  · have h1 : ¬ (48 ≤ c ∧ c ≤ 57) := by omega
    have h2 : ¬ c ≤ 57 := by omega
    rw [if_neg h1, if_pos h, if_neg h2, if_pos h.1]
    congr 1
    omega
  · have h1 : ¬ (48 ≤ c ∧ c ≤ 57) := by omega
    have h2 : ¬ (97 ≤ c ∧ c ≤ 102) := by omega
    have h3 : ¬ c ≤ 57 := by omega
    have h4 : ¬ 97 ≤ c := by omega
    rw [if_neg h1, if_neg h2, if_pos h, if_neg h3, if_neg h4]
    congr 1
    omega

/-- On a valid hex string the decoder returns the bytes the string denotes. -/
theorem hexDecodeString_valid : ∀ s : Bytes, validHex s = true →
    (hexDecodeString s).1 = decodeHex s
  | [], _ => rfl
  | [p], h => by rw [validHex_single] at h; exact Bool.noConfusion h
  | p :: q :: rest, h => by
    rw [validHex_cons_cons] at h
    simp only [Bool.and_eq_true] at h
    obtain ⟨hp, hq, hrest⟩ := h
    have ih := hexDecodeString_valid rest hrest
    simp only [hexDecodeString, fromHexChar_eq p hp, fromHexChar_eq q hq, decodeHex, ih]
    congr 1
    omega

theorem GetLayer2StoreKey_nonempty (addr key : Bytes) (hne : addr ≠ []) :
    GetLayer2StoreKey addr key
      = (0x05 :: ((hexDecodeString addr).1.reverse ++ key), none) := by
  have hl : addr.length > 0 := List.length_pos.mpr hne
  simp [GetLayer2StoreKey, hl, ToArrayReverse]

/-- C3: with the empty address the key is returned unchanged with a nil error;
with a non-empty valid hex address the hex decoder reports no error and
returns the bytes the address denotes, and the result is the byte 0x05, then
those bytes in reverse order, then the key, with a nil error and length
1 + len(addr)/2 + len(key). -/
theorem GetLayer2StoreKey_formula (addr key : Bytes) (hne : addr ≠ [])
    (hv : validHex addr = true) :
    GetLayer2StoreKey [] key = (key, none)
    ∧ hexDecodeString addr = (decodeHex addr, none)
    ∧ GetLayer2StoreKey addr key = ([0x05] ++ (decodeHex addr).reverse ++ key, none)
    ∧ (GetLayer2StoreKey addr key).1.length = 1 + addr.length / 2 + key.length := by
  have hok : (hexDecodeString addr).2 = none := (hexDecodeString_ok_iff addr).mpr hv
  have hlen := (hexDecodeString_length addr).1 hok
  have hval := hexDecodeString_valid addr hv
  refine ⟨by simp [GetLayer2StoreKey], Prod.ext hval hok, ?_, ?_⟩
  · rw [GetLayer2StoreKey_nonempty addr key hne, hval]
    rfl
  · rw [GetLayer2StoreKey_nonempty addr key hne]
    simp only [List.length_cons, List.length_append, List.length_reverse, hlen]
    omega

/-- C3 at a concrete input: the address "0aFf" and the key bytes 1, 2. -/
theorem GetLayer2StoreKey_formula_witness :
    GetLayer2StoreKey [48, 97, 70, 102] [1, 2] = ([5, 255, 10, 1, 2], none) := by
  have h := (GetLayer2StoreKey_formula [48, 97, 70, 102] [1, 2] (by decide) (by decide)).2.2.1
  rw [h]
  decide

/-- C4, refuted as stated: on the malformed address "zz" (and on the odd-length
address "a") the call returns a nil error together with a key. -/
theorem GetLayer2StoreKey_malformed_no_error :
    validHex [122, 122] = false
    ∧ GetLayer2StoreKey [122, 122] [1, 2, 3] = ([5, 1, 2, 3], none)
    ∧ validHex [97] = false
    ∧ GetLayer2StoreKey [97] [1, 2, 3] = ([5, 1, 2, 3], none)
    ∧ ¬ (∀ addr key : Bytes, addr ≠ [] → validHex addr = false →
          (GetLayer2StoreKey addr key).2 ≠ none) := by
  refine ⟨by decide, by decide, by decide, by decide, fun h => ?_⟩
  exact h [122, 122] [1, 2, 3] (by decide) (by decide) (by decide)

/-- C4, amended: for a non-empty address that is not a valid hex string the hex
decoder does report an error, but the call discards it: it returns a nil error
and the key made of 0x05, the reverse of the bytes decoded before the failure
(fewer than half the address length), and the key. -/
theorem GetLayer2StoreKey_malformed (addr key : Bytes) (hne : addr ≠ [])
    (hbad : validHex addr = false) :
    (hexDecodeString addr).2 ≠ none
    ∧ 2 * (hexDecodeString addr).1.length < addr.length
    ∧ GetLayer2StoreKey addr key
        = (0x05 :: ((hexDecodeString addr).1.reverse ++ key), none) := by
  have herr : (hexDecodeString addr).2 ≠ none := by
    intro h
    rw [(hexDecodeString_ok_iff addr).mp h] at hbad
    exact Bool.noConfusion hbad
  exact ⟨herr, (hexDecodeString_length addr).2 herr, GetLayer2StoreKey_nonempty addr key hne⟩

/-- C4 amended, at a concrete input: "0aZ9" decodes one byte before failing. -/
theorem GetLayer2StoreKey_malformed_witness :
    GetLayer2StoreKey [48, 97, 90, 57] [7] = ([5, 10, 7], none) := by
  have h := (GetLayer2StoreKey_malformed [48, 97, 90, 57] [7] (by decide) (by decide)).2.2
  rw [h]
  decide

/-! ## Operations without a transport -/

/-- C2: when the default, RPC, REST and web-socket clients are all unset, every
operation that talks to the node returns its zero result with the error
"don't have available client of ontology", for every argument, and leaves the
state as it was: nothing is added to the trace (no transport method is invoked,
no transaction is converted) and the counter is not advanced. -/
theorem no_client_fails (E : Env T) (s : Sys T)
    (hd : s.mgr.defClient = none) (hrpc : s.mgr.rpc = none)
    (hrest : s.mgr.rest = none) (hws : s.mgr.ws = none) :
    GetCurrentBlockHeight E s = ((0, some "don't have available client of ontology"), s)
    ∧ GetCurrentBlockHash E s
        = ((List.replicate 32 0, some "don't have available client of ontology"), s)
    ∧ (∀ height, GetBlockByHeight E height s
        = ((none, some "don't have available client of ontology"), s))
    ∧ (∀ height, GetBlockInfoByHeight E height s
        = ((none, some "don't have available client of ontology"), s))
    ∧ (∀ blockHash, GetBlockByHash E blockHash s
        = ((none, some "don't have available client of ontology"), s))
    ∧ (∀ txHash, GetTransaction E txHash s
        = ((none, some "don't have available client of ontology"), s))
    ∧ (∀ height, GetBlockHash E height s
        = ((List.replicate 32 0, some "don't have available client of ontology"), s))
    ∧ (∀ txHash, GetBlockHeightByTxHash E txHash s
        = ((0, some "don't have available client of ontology"), s))
    ∧ (∀ height, GetBlockTxHashesByHeight E height s
        = ((none, some "don't have available client of ontology"), s))
    ∧ (∀ contractAddress key, GetStorage E contractAddress key s
        = ((none, some "don't have available client of ontology"), s))
    ∧ (∀ contractAddress, GetSmartContract E contractAddress s
        = ((none, some "don't have available client of ontology"), s))
    ∧ (∀ txHash, GetSmartContractEvent E txHash s
        = ((none, some "don't have available client of ontology"), s))
    ∧ (∀ height, GetSmartContractEventByBlock E height s
        = (([], some "don't have available client of ontology"), s))
    ∧ (∀ txHash, GetMerkleProof E txHash s
        = ((none, some "don't have available client of ontology"), s))
    ∧ (∀ height key, GetCrossStatesProof E height key s
        = ((none, some "don't have available client of ontology"), s))
    ∧ (∀ height, GetCrossChainMsg E height s
        = (("", some "don't have available client of ontology"), s))
    ∧ (∀ txHash, GetMemPoolTxState E txHash s
        = ((none, some "don't have available client of ontology"), s))
    ∧ GetMemPoolTxCount E s = ((none, some "don't have available client of ontology"), s)
    ∧ GetVersion E s = (("", some "don't have available client of ontology"), s)
    ∧ GetNetworkId E s = ((0, some "don't have available client of ontology"), s)
    ∧ (∀ mutTx, SendTransaction E mutTx s
        = ((List.replicate 32 0, some "don't have available client of ontology"), s))
    ∧ (∀ mutTx, PreExecTransaction E mutTx s
        = ((none, some "don't have available client of ontology"), s))
    ∧ (∀ height, GetLayer2BlockByHeight E height s
        = ((none, some "don't have available client of ontology"), s))
    ∧ (∀ blockHash, GetLayer2BlockByHash E blockHash s
        = ((none, some "don't have available client of ontology"), s))
    ∧ (∀ key, GetLayer2StoreProof E key s
        = ((none, some "don't have available client of ontology"), s)) := by
  have hc : getClient s.mgr = none := by
    simp only [getClient, hd, hrpc, hrest, hws]
  simp only [GetCurrentBlockHeight, GetCurrentBlockHash, GetBlockByHeight,
    GetBlockInfoByHeight, GetBlockByHash, GetTransaction, GetBlockHash,
    GetBlockHeightByTxHash, GetBlockTxHashesByHeight, GetStorage, GetSmartContract,
    GetSmartContractEvent, GetSmartContractEventByBlock, GetMerkleProof,
    GetCrossStatesProof, GetCrossChainMsg, GetMemPoolTxState, GetMemPoolTxCount,
    GetVersion, GetNetworkId, SendTransaction, PreExecTransaction,
    GetLayer2BlockByHeight, GetLayer2BlockByHash, GetLayer2StoreProof, hc,
    errNoClient, UINT256_EMPTY, implies_true, and_self]

/-! ## Layer-2 proof verification -/

/-- C9: `VerifyLayer2StoreProof` returns (true, nil) exactly when the blob
deserializes, the structural check against the state root passes and the item
check of (key, value) passes; otherwise it returns false with the error of the
first failing step in the order deserialize, structural check, item check, and
the steps after the failing one are not run. The result does not depend on the
receiver. -/
theorem VerifyLayer2StoreProof_stages (V : Verifier T) (this : Layer2ClientMgr)
    (key value proof stateRoot : Bytes) :
    ((VerifyLayer2StoreProof V this key value proof stateRoot).1 = (true, none) ↔
      (V.Deserialization proof).2 = none
      ∧ (V.Verify (V.Deserialization proof).1 stateRoot).2 = none
      ∧ V.VerifyItem (V.Verify (V.Deserialization proof).1 stateRoot).1 key value = none)
    ∧ (∀ e, (V.Deserialization proof).2 = some e →
        VerifyLayer2StoreProof V this key value proof stateRoot
          = ((false, some e), [Stage.deserialize]))
    ∧ (∀ e, (V.Deserialization proof).2 = none →
        (V.Verify (V.Deserialization proof).1 stateRoot).2 = some e →
        VerifyLayer2StoreProof V this key value proof stateRoot
          = ((false, some e), [Stage.deserialize, Stage.verify]))
    ∧ (∀ e, (V.Deserialization proof).2 = none →
        (V.Verify (V.Deserialization proof).1 stateRoot).2 = none →
        V.VerifyItem (V.Verify (V.Deserialization proof).1 stateRoot).1 key value = some e →
        VerifyLayer2StoreProof V this key value proof stateRoot
          = ((false, some e), [Stage.deserialize, Stage.verify, Stage.verifyItem]))
    ∧ (∀ other : Layer2ClientMgr,
        VerifyLayer2StoreProof V other key value proof stateRoot
          = VerifyLayer2StoreProof V this key value proof stateRoot) := by
  refine ⟨?_, ?_, ?_, ?_, fun _ => rfl⟩
  · cases h1 : (V.Deserialization proof).2 with
    | some e => simp [VerifyLayer2StoreProof, h1]
    | none =>
      cases h2 : (V.Verify (V.Deserialization proof).1 stateRoot).2 with
      | some e => simp [VerifyLayer2StoreProof, h1, h2]
      | none =>
        cases h3 : V.VerifyItem (V.Verify (V.Deserialization proof).1 stateRoot).1 key value
          <;> simp [VerifyLayer2StoreProof, h1, h2, h3]
  · intro e h1
    simp [VerifyLayer2StoreProof, h1]
  · intro e h1 h2
    simp [VerifyLayer2StoreProof, h1, h2]
  · intro e h1 h2 h3
    simp [VerifyLayer2StoreProof, h1, h2, h3]

/-! ## Events of a block -/

/-- C10: when a transport is available and its call succeeds, a response that
is a nil slice, the empty string or the two bytes `""` gives the empty event
list with a nil error, whatever the event decoder would answer; every other
response gives exactly what the event decoder returns on it. In both cases one
id is drawn and the one call is recorded. -/
theorem GetSmartContractEventByBlock_empty (E : Env T) (height : Nat) (s : Sys T)
    (client : OntologyClient) (data : Option Bytes)
    (hc : getClient s.mgr = some client)
    (hr : E.net s.trace client
        (Request.getSmartContractEventByBlock (getNextQid s.mgr).1 height) = (data, none)) :
    ((data = none ∨ data = some [] ∨ data = some [34, 34]) →
      ∀ dec : Option Bytes → List T.SmartContactEvent × Option String,
        GetSmartContractEventByBlock { E with GetSmartContactEvents := dec } height s
          = (([], none),
              { mgr := (getNextQid s.mgr).2,
                trace := s.trace ++ [Event.invoke client
                  (Request.getSmartContractEventByBlock (getNextQid s.mgr).1 height)] }))
    ∧ (¬ (data = none ∨ data = some [] ∨ data = some [34, 34]) →
        GetSmartContractEventByBlock E height s
          = (E.GetSmartContactEvents data,
              { mgr := (getNextQid s.mgr).2,
                trace := s.trace ++ [Event.invoke client
                  (Request.getSmartContractEventByBlock (getNextQid s.mgr).1 height)] })) := by
  constructor
  · intro hempty dec
    have hcond : data = none ∨ bytesOf data = [] ∨ bytesOf data = [34, 34] := by
      rcases hempty with h | h | h
      · exact Or.inl h
      · exact Or.inr (Or.inl (by rw [h]; rfl))
      · exact Or.inr (Or.inr (by rw [h]; rfl))
    simp only [GetSmartContractEventByBlock, hc, nextQid, invoke, hr, hcond, if_true]
  · intro hne
    have hcond : ¬ (data = none ∨ bytesOf data = [] ∨ bytesOf data = [34, 34]) := by
      intro h
      apply hne
      rcases h with h | h | h
      · exact Or.inl h
      · cases data with
        | none => exact Or.inl rfl
        | some b => exact Or.inr (Or.inl (by simpa [bytesOf] using h))
      · cases data with
        | none => exact Or.inl rfl
        | some b => exact Or.inr (Or.inr (by simpa [bytesOf] using h))
    simp only [GetSmartContractEventByBlock, hc, nextQid, invoke, hr, hcond, if_false]

/-! ## Block wait -/

theorem GetCurrentBlockHeight_state (E : Env T) (s : Sys T) (c : OntologyClient)
    (hc : getClient s.mgr = some c) :
    (GetCurrentBlockHeight E s).2
      = { mgr := (getNextQid s.mgr).2,
          trace := s.trace ++
            [Event.invoke c (Request.getCurrentBlockHeight (getNextQid s.mgr).1)] } := by
  simp only [GetCurrentBlockHeight, hc, nextQid, invoke]
  split <;> rfl

theorem GetCurrentBlockHeight_ok_client (E : Env T) (s : Sys T)
    (h : (GetCurrentBlockHeight E s).1.2 = none) : ∃ c, getClient s.mgr = some c := by
  cases hc : getClient s.mgr with
  | some c => exact ⟨c, rfl⟩
  | none => simp [GetCurrentBlockHeight, hc, errNoClient] at h

theorem elapsedSeconds_append (a b : List (Event T)) :
    elapsedSeconds (a ++ b) = elapsedSeconds a + elapsedSeconds b := by
  simp [elapsedSeconds, List.map_append, List.sum_append]

theorem heightQueries_append (a b : List (Event T)) :
    heightQueries (a ++ b) = heightQueries a + heightQueries b := by
  simp [heightQueries, List.map_append, List.sum_append]

theorem invocations_append (a b : List (Event T)) :
    invocations (a ++ b) = invocations a + invocations b := by
  simp [invocations, List.map_append, List.sum_append]

/-- The state after read `j` of a wait on a manager with a client: the client is
the same, `j` seconds were slept, and `j + 1` transport calls were made, all of
them height queries. -/
theorem heightRead_state (E : Env T) (s : Sys T) (c : OntologyClient)
    (hc : getClient s.mgr = some c) : ∀ j : Nat,
    getClient (heightRead E s j).2.mgr = some c
    ∧ elapsedSeconds (heightRead E s j).2.trace = elapsedSeconds s.trace + j
    ∧ heightQueries (heightRead E s j).2.trace = heightQueries s.trace + (j + 1)
    ∧ invocations (heightRead E s j).2.trace = invocations s.trace + (j + 1) := by
  intro j
  induction j with
  | zero =>
    simp only [heightRead]
    rw [GetCurrentBlockHeight_state E s c hc]
    refine ⟨hc, ?_, ?_, ?_⟩
    · simp [elapsedSeconds_append, elapsedSeconds]
    · simp [heightQueries_append, heightQueries]
    · simp [invocations_append, invocations]
  | succ k ih =>
    obtain ⟨h1, h2, h3, h4⟩ := ih
    have hc2 : getClient (sleepSecond (heightRead E s k).2).mgr = some c := h1
    simp only [heightRead]
    rw [GetCurrentBlockHeight_state E _ c hc2]
    refine ⟨h1, ?_, ?_, ?_⟩
    · simp only [sleepSecond, elapsedSeconds_append, h2]
      simp [elapsedSeconds]
      omega
    · simp only [sleepSecond, heightQueries_append, h3]
      simp [heightQueries]
      omega
    · simp only [sleepSecond, invocations_append, h4]
      simp [invocations]
      omega

/-- On heights that fit 32 bits and do not lie below the baseline, the 32-bit
difference is the ordinary one. -/
theorem subUint32_of_le (h h0 : Nat) (hle : h0 ≤ h) (hlt : h < 2 ^ 32) :
    subUint32 h h0 = h - h0 := by
  unfold subUint32
  have e1 : h % 2 ^ 32 = h := Nat.mod_eq_of_lt hlt
  have e2 : h0 % 2 ^ 32 = h0 := Nat.mod_eq_of_lt (by omega)
  rw [e1, e2]
  have e3 : h + 2 ^ 32 - h0 = (h - h0) + 2 ^ 32 := by omega
  rw [e3, Nat.add_mod_right]
  exact Nat.mod_eq_of_lt (by omega)

theorem waitLoop_succ (E : Env T) (h0 t n : Nat) (s : Sys T) :
    waitLoop E h0 t (n + 1) s
      = if (GetCurrentBlockHeight E (sleepSecond s)).1.2 = none
            ∧ t ≤ subUint32 (GetCurrentBlockHeight E (sleepSecond s)).1.1 h0
        then (true, (GetCurrentBlockHeight E (sleepSecond s)).2)
        else waitLoop E h0 t n (GetCurrentBlockHeight E (sleepSecond s)).2 := by
  rw [waitLoop]
  cases h : (GetCurrentBlockHeight E (sleepSecond s)).1.2 with
  | some e => simp
  | none =>
    by_cases ht : t ≤ subUint32 (GetCurrentBlockHeight E (sleepSecond s)).1.1 h0
    · simp [ht]
    · simp [ht]

/-- When no read after `j` up to `j + n` qualifies, the loop runs all its `n`
iterations and reports no success. -/
theorem waitLoop_exhausts (E : Env T) (s : Sys T) (h0 t : Nat) : ∀ n j : Nat,
    (∀ k, j < k → k ≤ j + n →
      ¬ ((heightRead E s k).1.2 = none ∧ t ≤ subUint32 (heightRead E s k).1.1 h0)) →
    waitLoop E h0 t n (heightRead E s j).2 = (false, (heightRead E s (j + n)).2) := by
  intro n
  induction n with
  | zero => intro j _; rfl
  | succ m ih =>
    intro j hk
    rw [waitLoop_succ]
    have hstep : GetCurrentBlockHeight E (sleepSecond (heightRead E s j).2)
        = heightRead E s (j + 1) := rfl
    rw [hstep, if_neg (hk (j + 1) (by omega) (by omega))]
    rw [ih (j + 1) (fun k h1 h2 => hk k (by omega) (by omega))]
    have : j + 1 + m = j + (m + 1) := by omega
    rw [this]

/-- When read `i` is the first one after `j` that qualifies and lies within
the `n` iterations, the loop stops there with success. -/
theorem waitLoop_stops (E : Env T) (s : Sys T) (h0 t i : Nat) : ∀ n j : Nat,
    j < i → i ≤ j + n →
    ((heightRead E s i).1.2 = none ∧ t ≤ subUint32 (heightRead E s i).1.1 h0) →
    (∀ k, j < k → k < i →
      ¬ ((heightRead E s k).1.2 = none ∧ t ≤ subUint32 (heightRead E s k).1.1 h0)) →
    waitLoop E h0 t n (heightRead E s j).2 = (true, (heightRead E s i).2) := by
  intro n
  induction n with
  | zero => intro j h1 h2; omega
  | succ m ih =>
    intro j h1 h2 hq hk
    rw [waitLoop_succ]
    have hstep : GetCurrentBlockHeight E (sleepSecond (heightRead E s j).2)
        = heightRead E s (j + 1) := rfl
    rw [hstep]
    by_cases hi : i = j + 1
    · subst hi
      rw [if_pos hq]
    · rw [if_neg (hk (j + 1) (by omega) (by omega))]
      exact ih (j + 1) (by omega) (by omega) hq (fun k h3 h4 => hk k (by omega) h4)

theorem specTarget_eq (blockCount : List Nat) :
    (match blockCount with
      | c :: _ => if c > 0 then c else 2
      | [] => 2) = specTarget blockCount := by
  cases blockCount with
  | nil => rfl
  | cons c rest =>
    cases c with
    | zero => rfl
    | succ k => simp [specTarget]

theorem tdiv_Second (timeout : Int) :
    Int.tdiv timeout 1000000000
      = if 0 ≤ timeout then timeout / 1000000000 else -((-timeout) / 1000000000) := by
  by_cases h : 0 ≤ timeout
  · rw [if_pos h, Int.tdiv_eq_ediv h (by decide)]
  · rw [if_neg h]
    have hn : 0 ≤ -timeout := by omega
    have e : timeout = -(-timeout) := by omega
    conv_lhs => rw [e]
    rw [Int.neg_tdiv, Int.tdiv_eq_ediv hn (by decide)]

theorem clamp_secs (timeout : Int) :
    (if Int.tdiv timeout Second ≤ 0 then 1 else Int.tdiv timeout Second)
      = ((specSecs timeout : Nat) : Int) := by
  unfold Second specSecs
  rw [tdiv_Second]
  by_cases h : 0 ≤ timeout
  · simp only [if_pos h]
    split <;> omega
  · simp only [if_neg h]
    split <;> omega

theorem toString_natCast (n : Nat) : toString ((n : Nat) : Int) = Nat.repr n := rfl

/-- The method with its target and iteration count in the words of the
specification. -/
theorem WaitForGenerateBlock_eq (E : Env T) (timeout : Int) (blockCount : List Nat)
    (s : Sys T) (hb : (GetCurrentBlockHeight E s).1.2 = none) :
    WaitForGenerateBlock E timeout blockCount s
      = if (waitLoop E (GetCurrentBlockHeight E s).1.1 (specTarget blockCount)
            (specSecs timeout) (GetCurrentBlockHeight E s).2).1
        then ((true, none),
          (waitLoop E (GetCurrentBlockHeight E s).1.1 (specTarget blockCount)
            (specSecs timeout) (GetCurrentBlockHeight E s).2).2)
        else ((false, some ("timeout after " ++ Nat.repr (specSecs timeout) ++ " (s)")),
          (waitLoop E (GetCurrentBlockHeight E s).1.1 (specTarget blockCount)
            (specSecs timeout) (GetCurrentBlockHeight E s).2).2) := by
  unfold WaitForGenerateBlock
  simp only [hb, specTarget_eq, clamp_secs, Int.toNat_ofNat, toString_natCast]

theorem waitLoop_true (E : Env T) (s : Sys T) (h0 t : Nat) : ∀ n j : Nat,
    (waitLoop E h0 t n (heightRead E s j).2).1 = true →
    ∃ i, j < i ∧ i ≤ j + n ∧ (heightRead E s i).1.2 = none
      ∧ t ≤ subUint32 (heightRead E s i).1.1 h0 := by
  intro n
  induction n with
  | zero => intro j h; simp [waitLoop] at h
  | succ m ih =>
    intro j h
    rw [waitLoop_succ] at h
    have hstep : GetCurrentBlockHeight E (sleepSecond (heightRead E s j).2)
        = heightRead E s (j + 1) := rfl
    rw [hstep] at h
    by_cases hq : (heightRead E s (j + 1)).1.2 = none
        ∧ t ≤ subUint32 (heightRead E s (j + 1)).1.1 h0
    · exact ⟨j + 1, by omega, by omega, hq.1, hq.2⟩
    · rw [if_neg hq] at h
      obtain ⟨i, h1, h2, h3⟩ := ih (j + 1) h
      exact ⟨i, by omega, by omega, h3⟩

/-- What success does guarantee: some poll within the iterations succeeded with
a 32-bit difference to the baseline of at least the target. -/
theorem WaitForGenerateBlock_true (E : Env T) (timeout : Int) (blockCount : List Nat)
    (s : Sys T) (h : (WaitForGenerateBlock E timeout blockCount s).1 = (true, none)) :
    (heightRead E s 0).1.2 = none
    ∧ ∃ i, 1 ≤ i ∧ i ≤ specSecs timeout ∧ (heightRead E s i).1.2 = none
      ∧ specTarget blockCount ≤ subUint32 (heightRead E s i).1.1 (heightRead E s 0).1.1 := by
  have hb : (GetCurrentBlockHeight E s).1.2 = none := by
    cases hb : (GetCurrentBlockHeight E s).1.2 with
    | none => rfl
    | some e => simp [WaitForGenerateBlock, hb] at h
  refine ⟨hb, ?_⟩
  rw [WaitForGenerateBlock_eq E timeout blockCount s hb] at h
  have hw : (waitLoop E (heightRead E s 0).1.1 (specTarget blockCount) (specSecs timeout)
      (heightRead E s 0).2).1 = true := by
    by_contra hne
    have hf : (waitLoop E (GetCurrentBlockHeight E s).1.1 (specTarget blockCount)
        (specSecs timeout) (GetCurrentBlockHeight E s).2).1 = false := by
      simpa [heightRead] using hne
    rw [hf] at h
    simp at h
  obtain ⟨i, h1, h2, h3⟩ := waitLoop_true E s _ _ _ 0 hw
  exact ⟨i, by omega, by omega, h3⟩

/-- The block wait under the test the code performs. The target is 2 when no
count or the count 0 is supplied and the first supplied count otherwise; when
the baseline query succeeds and poll `i`, with
`1 ≤ i ≤ max(1, whole seconds of timeout)`, is the first poll that succeeds
with a 32-bit (wrapping) difference to the baseline of at least the target, the
call returns (true, nil) in the state right after poll `i`: exactly `i` seconds
slept and `i` polls after the baseline query, and no other transport call. For
32-bit heights not below the baseline the difference is the ordinary one. -/
theorem WaitForGenerateBlock_first_success (E : Env T) (timeout : Int)
    (blockCount : List Nat) (s : Sys T) (i : Nat)
    (hbase : (heightRead E s 0).1.2 = none)
    (hi1 : 1 ≤ i) (hi2 : i ≤ specSecs timeout)
    (hok : (heightRead E s i).1.2 = none)
    (hreach : specTarget blockCount
      ≤ subUint32 (heightRead E s i).1.1 (heightRead E s 0).1.1)
    (hfirst : ∀ j, 1 ≤ j → j < i → ¬ ((heightRead E s j).1.2 = none
        ∧ specTarget blockCount ≤ subUint32 (heightRead E s j).1.1 (heightRead E s 0).1.1)) :
    WaitForGenerateBlock E timeout blockCount s = ((true, none), (heightRead E s i).2)
    ∧ elapsedSeconds (WaitForGenerateBlock E timeout blockCount s).2.trace
        = elapsedSeconds s.trace + i
    ∧ heightQueries (WaitForGenerateBlock E timeout blockCount s).2.trace
        = heightQueries s.trace + (i + 1)
    ∧ invocations (WaitForGenerateBlock E timeout blockCount s).2.trace
        = invocations s.trace + (i + 1)
    ∧ specTarget [] = 2
    ∧ (∀ rest, specTarget (0 :: rest) = 2)
    ∧ (∀ c rest, specTarget ((c + 1) :: rest) = c + 1)
    ∧ (∀ h h0, h0 ≤ h → h < 2 ^ 32 → subUint32 h h0 = h - h0) := by
  have hb : (GetCurrentBlockHeight E s).1.2 = none := hbase
  obtain ⟨c, hc⟩ := GetCurrentBlockHeight_ok_client E s hb
  have hw : waitLoop E (GetCurrentBlockHeight E s).1.1 (specTarget blockCount)
      (specSecs timeout) (GetCurrentBlockHeight E s).2 = (true, (heightRead E s i).2) :=
    waitLoop_stops E s (heightRead E s 0).1.1 (specTarget blockCount) i (specSecs timeout) 0
      (by omega) (by omega) ⟨hok, hreach⟩ (fun k h1 h2 => hfirst k (by omega) h2)
  have hres : WaitForGenerateBlock E timeout blockCount s
      = ((true, none), (heightRead E s i).2) := by
    rw [WaitForGenerateBlock_eq E timeout blockCount s hb, hw]
    rfl
  obtain ⟨_, h2, h3, h4⟩ := heightRead_state E s c hc i
  rw [hres]
  exact ⟨rfl, h2, h3, h4, rfl, fun _ => rfl, fun _ _ => rfl, subUint32_of_le⟩

/-- The first scenario of the specification: baseline 100, polls 100, 101, 102,
default target, timeout 10 s: success at the third poll, after 3 seconds. -/
theorem WaitForGenerateBlock_first_success_witness :
    WaitForGenerateBlock (simEnv (heightScript [100, 100, 101, 102])) 10000000000 [] simStart
      = ((true, none), (heightRead (simEnv (heightScript [100, 100, 101, 102])) simStart 3).2)
    ∧ elapsedSeconds (WaitForGenerateBlock (simEnv (heightScript [100, 100, 101, 102]))
        10000000000 [] simStart).2.trace = elapsedSeconds simStart.trace + 3 :=
  have h := WaitForGenerateBlock_first_success (simEnv (heightScript [100, 100, 101, 102]))
    10000000000 [] simStart 3 (by decide) (by decide) (by decide) (by decide) (by decide)
    (by decide)
  ⟨h.1, h.2.1⟩

/-- The timeout of the block wait under the test the code performs. The number
of polls is the whole seconds of the timeout clamped to a minimum of 1 (so 1
for every timeout below one second); when the baseline query succeeds and none
of these polls both succeeds and has a 32-bit (wrapping) difference to the
baseline of at least the target, the call makes exactly that many polls, one
per second, and returns (false, "timeout after <secs> (s)"); failed polls are
not reported. -/
theorem WaitForGenerateBlock_timeout (E : Env T) (timeout : Int)
    (blockCount : List Nat) (s : Sys T)
    (hbase : (heightRead E s 0).1.2 = none)
    (hnone : ∀ j, 1 ≤ j → j ≤ specSecs timeout → ¬ ((heightRead E s j).1.2 = none
        ∧ specTarget blockCount ≤ subUint32 (heightRead E s j).1.1 (heightRead E s 0).1.1)) :
    WaitForGenerateBlock E timeout blockCount s
      = ((false, some ("timeout after " ++ Nat.repr (specSecs timeout) ++ " (s)")),
          (heightRead E s (specSecs timeout)).2)
    ∧ elapsedSeconds (WaitForGenerateBlock E timeout blockCount s).2.trace
        = elapsedSeconds s.trace + specSecs timeout
    ∧ heightQueries (WaitForGenerateBlock E timeout blockCount s).2.trace
        = heightQueries s.trace + (specSecs timeout + 1)
    ∧ invocations (WaitForGenerateBlock E timeout blockCount s).2.trace
        = invocations s.trace + (specSecs timeout + 1)
    ∧ 1 ≤ specSecs timeout
    ∧ (∀ d : Int, d < 1000000000 → specSecs d = 1) := by
  have hb : (GetCurrentBlockHeight E s).1.2 = none := hbase
  obtain ⟨c, hc⟩ := GetCurrentBlockHeight_ok_client E s hb
  have hw : waitLoop E (GetCurrentBlockHeight E s).1.1 (specTarget blockCount)
      (specSecs timeout) (GetCurrentBlockHeight E s).2
        = (false, (heightRead E s (0 + specSecs timeout)).2) :=
    waitLoop_exhausts E s (heightRead E s 0).1.1 (specTarget blockCount) (specSecs timeout) 0
      (fun k h1 h2 => hnone k (by omega) (by omega))
  rw [Nat.zero_add] at hw
  have hres : WaitForGenerateBlock E timeout blockCount s
      = ((false, some ("timeout after " ++ Nat.repr (specSecs timeout) ++ " (s)")),
          (heightRead E s (specSecs timeout)).2) := by
    rw [WaitForGenerateBlock_eq E timeout blockCount s hb, hw]
    rfl
  obtain ⟨_, h2, h3, h4⟩ := heightRead_state E s c hc (specSecs timeout)
  rw [hres]
  refine ⟨rfl, h2, h3, h4, ?_, ?_⟩
  · unfold specSecs; omega
  · intro d hd; unfold specSecs; omega

/-- The second scenario of the specification: baseline 100, timeout 2 s, the
height never advances: the failure names 2 seconds. -/
theorem WaitForGenerateBlock_timeout_witness :
    (WaitForGenerateBlock (simEnv (heightScript [100, 100, 100])) 2000000000 [] simStart).1
      = (false, some "timeout after 2 (s)") := by
  have h := (WaitForGenerateBlock_timeout (simEnv (heightScript [100, 100, 100]))
    2000000000 [] simStart (by decide) (by decide)).1
  rw [h]
  decide

/-- C8, the code at the failing input: baseline 100, first poll 99, default
target 2, timeout 5 s. The 32-bit difference 99 - 100 wraps to 4294967295, and
the call returns (true, nil) after that single poll although no polled height
reaches 102. -/
theorem WaitForGenerateBlock_lower_height_succeeds :
    (heightRead (simEnv (heightScript [100, 99])) simStart 0).1 = (100, none)
    ∧ (heightRead (simEnv (heightScript [100, 99])) simStart 1).1 = (99, none)
    ∧ subUint32 99 100 = 4294967295
    ∧ (WaitForGenerateBlock (simEnv (heightScript [100, 99])) 5000000000 [] simStart).1
        = (true, none)
    ∧ elapsedSeconds
        (WaitForGenerateBlock (simEnv (heightScript [100, 99])) 5000000000 [] simStart).2.trace
        = 1
    ∧ heightQueries
        (WaitForGenerateBlock (simEnv (heightScript [100, 99])) 5000000000 [] simStart).2.trace
        = 2 := by
  decide

/-- C2 at a concrete input: a manager with no client, on the scripted node. -/
theorem no_client_fails_witness :
    GetCurrentBlockHeight (simEnv (heightScript [100])) simEmpty
      = ((0, some "don't have available client of ontology"), simEmpty)
    ∧ SendTransaction (simEnv (heightScript [100])) (7 : Nat) simEmpty
      = ((List.replicate 32 0, some "don't have available client of ontology"), simEmpty) :=
  have h := no_client_fails (simEnv (heightScript [100])) simEmpty rfl rfl rfl rfl
  ⟨h.1, h.2.2.2.2.2.2.2.2.2.2.2.2.2.2.2.2.2.2.2.2.1 7⟩

/-- C10 at concrete inputs: the response `""` gives no events although the
decoder of the scripted node would return two; the response 1, 2 gives the
decoder's answer. -/
theorem GetSmartContractEventByBlock_empty_witness :
    (GetSmartContractEventByBlock (simEnv [(some [34, 34], none)]) 7 simStart).1 = ([], none)
    ∧ (simEnv [(some [34, 34], none)]).GetSmartContactEvents (some [34, 34])
        = ([34, 34], none)
    ∧ (GetSmartContractEventByBlock (simEnv [(some [1, 2], none)]) 7 simStart).1
        = ([1, 2], none) := by
  have h1 := (GetSmartContractEventByBlock_empty (simEnv [(some [34, 34], none)]) 7 simStart
    (OntologyClient.ofRpc { addr := 1 }) (some [34, 34]) rfl rfl).1 (Or.inr (Or.inr rfl))
    (simEnv [(some [34, 34], none)]).GetSmartContactEvents
  have h2 := (GetSmartContractEventByBlock_empty (simEnv [(some [1, 2], none)]) 7 simStart
    (OntologyClient.ofRpc { addr := 1 }) (some [1, 2]) rfl rfl).2 (by decide)
  exact ⟨congrArg Prod.fst h1, rfl, congrArg Prod.fst h2⟩

/-- C6, the code at a failing input: baseline 100, polls 99 then 102, default
target 2, timeout 10 s. The first poll whose height is at least baseline plus
target is poll 2, but the call returns (true, nil) already after poll 1 (one
second slept, two height queries in all), because the 32-bit difference
99 - 100 wraps to 4294967295. Hence the statement with the ordinary difference
does not hold of the code. -/
theorem WaitForGenerateBlock_first_success_plain_fails :
    (heightRead (simEnv (heightScript [100, 99, 102])) simStart 0).1 = (100, none)
    ∧ (heightRead (simEnv (heightScript [100, 99, 102])) simStart 1).1 = (99, none)
    ∧ (heightRead (simEnv (heightScript [100, 99, 102])) simStart 2).1 = (102, none)
    ∧ specTarget [] = 2
    ∧ specSecs 10000000000 = 10
    ∧ (WaitForGenerateBlock (simEnv (heightScript [100, 99, 102])) 10000000000 []
        simStart).1 = (true, none)
    ∧ elapsedSeconds (WaitForGenerateBlock (simEnv (heightScript [100, 99, 102]))
        10000000000 [] simStart).2.trace = 1
    ∧ heightQueries (WaitForGenerateBlock (simEnv (heightScript [100, 99, 102]))
        10000000000 [] simStart).2.trace = 2
    ∧ ¬ (∀ (E : Env simTypes) (timeout : Int) (blockCount : List Nat) (s : Sys simTypes)
          (i : Nat),
          (heightRead E s 0).1.2 = none → 1 ≤ i → i ≤ specSecs timeout →
          (heightRead E s i).1.2 = none →
          (heightRead E s 0).1.1 + specTarget blockCount ≤ (heightRead E s i).1.1 →
          (∀ j, 1 ≤ j → j < i →
            ¬ ((heightRead E s j).1.2 = none
              ∧ (heightRead E s 0).1.1 + specTarget blockCount ≤ (heightRead E s j).1.1)) →
          elapsedSeconds (WaitForGenerateBlock E timeout blockCount s).2.trace
            = elapsedSeconds s.trace + i) := by
  refine ⟨by decide, by decide, by decide, by decide, by decide, by decide, by decide,
    by decide, fun h => ?_⟩
  have h2 := h (simEnv (heightScript [100, 99, 102])) 10000000000 [] simStart 2
    (by decide) (by decide) (by decide) (by decide) (by decide) (by decide)
  have h1 : elapsedSeconds (WaitForGenerateBlock (simEnv (heightScript [100, 99, 102]))
      10000000000 [] simStart).2.trace = 1 := by decide
  rw [h1] at h2
  exact absurd h2 (by decide)

/-- C7, the code at a failing input: baseline 100, polls 99 and 99, default
target 2, timeout 2 s. No poll reads a height of at least baseline plus target,
yet the call does not time out: it returns (true, nil) after the first poll,
because the 32-bit difference 99 - 100 wraps to 4294967295. Hence the statement
with the ordinary difference does not hold of the code. -/
theorem WaitForGenerateBlock_timeout_plain_fails :
    (heightRead (simEnv (heightScript [100, 99, 99])) simStart 0).1 = (100, none)
    ∧ (heightRead (simEnv (heightScript [100, 99, 99])) simStart 1).1 = (99, none)
    ∧ (heightRead (simEnv (heightScript [100, 99, 99])) simStart 2).1 = (99, none)
    ∧ specTarget [] = 2
    ∧ specSecs 2000000000 = 2
    ∧ (WaitForGenerateBlock (simEnv (heightScript [100, 99, 99])) 2000000000 []
        simStart).1 = (true, none)
    ∧ elapsedSeconds (WaitForGenerateBlock (simEnv (heightScript [100, 99, 99]))
        2000000000 [] simStart).2.trace = 1
    ∧ heightQueries (WaitForGenerateBlock (simEnv (heightScript [100, 99, 99]))
        2000000000 [] simStart).2.trace = 2
    ∧ ¬ (∀ (E : Env simTypes) (timeout : Int) (blockCount : List Nat) (s : Sys simTypes),
          (heightRead E s 0).1.2 = none →
          (∀ j, 1 ≤ j → j ≤ specSecs timeout →
            ¬ ((heightRead E s j).1.2 = none
              ∧ (heightRead E s 0).1.1 + specTarget blockCount ≤ (heightRead E s j).1.1)) →
          (WaitForGenerateBlock E timeout blockCount s).1
            = (false, some ("timeout after " ++ Nat.repr (specSecs timeout) ++ " (s)"))) := by
  refine ⟨by decide, by decide, by decide, by decide, by decide, by decide, by decide,
    by decide, fun h => ?_⟩
  have h2 := h (simEnv (heightScript [100, 99, 99])) 2000000000 [] simStart
    (by decide) (by decide)
  have h1 : (WaitForGenerateBlock (simEnv (heightScript [100, 99, 99])) 2000000000 []
      simStart).1 = (true, none) := by decide
  rw [h1] at h2
  exact absurd h2 (by decide)

end OntSdk
